import Mathlib

/-!
Verification of the tag filtering, selection and archival logic of
manageDockerHub.py against its specification.

The Python source is shallowly embedded:
  - Python strings are lists of characters (PyStr); str.lower is a
    character-wise toLower (the program only handles ASCII image and tag
    names).
  - datetime.date values are triples of integers compared
    lexicographically, exactly as Python compares dates; date.today() is
    passed in explicitly as a parameter wherever the source calls it.
  - tag['last_updated'] is modelled directly as the date that
    datetime.fromisoformat(...).date() produces; the string truncation of
    the timestamp is not itself modelled, the claims only concern the
    resulting date.
  - Python ints are Int.  Python 3 true division of ints produces a float;
    floats arising this way are modelled exactly as rationals (the facts
    proved about them are insensitive to float rounding).  A value that is
    dynamically an int or a float is a PyNum.
  - fallible code returns Except PyErr; sys.exit on bad input is the
    exitErr constructor; uncaught TypeError / ValueError / IndexError get
    their own constructors.
  - network and docker-engine collaborators (HTTP responses, push event
    streams) are passed in as explicit data / oracle functions.
-/

/-- A Python string, as a list of characters. -/
abbrev PyStr := List Char

/-- Python str.lower, character-wise (ASCII). -/
def pyLower (s : PyStr) : PyStr := s.map Char.toLower

/-- Python dynamic numeric value: an int, or a float (modelled as an exact
rational). -/
inductive PyNum where
  | int (n : Int)
  | float (q : ℚ)
deriving DecidableEq, Repr

/-- Uncaught Python-level failures of the embedded code. -/
inductive PyErr where
  | typeError
  | valueError
  | indexError
  | exitErr (msg : PyStr)
deriving DecidableEq, Repr

deriving instance DecidableEq for Except

/-- A Python datetime.date: year, month, day. -/
structure PyDate where
  year : Int
  month : Int
  day : Int
deriving DecidableEq, Repr

/-- Python date comparison: dates compare lexicographically by
(year, month, day). -/
def pyDateLt (a b : PyDate) : Bool :=
  decide (a.year < b.year) ||
    (decide (a.year = b.year) &&
      (decide (a.month < b.month) ||
        (decide (a.month = b.month) && decide (a.day < b.day))))

/-- calendar.isleap from the Python standard library. -/
def isLeap (y : Int) : Bool :=
  decide (y % 4 = 0) && (decide (y % 100 ≠ 0) || decide (y % 400 = 0))

/-- calendar.monthrange(y, m)[1]: the number of days of month m of year y.
(The source only calls it with m between 1 and 12.) -/
def daysInMonth (y m : Int) : Int :=
  if m = 2 then (if isLeap y then 29 else 28)
  else if m = 4 ∨ m = 6 ∨ m = 9 ∨ m = 11 then 30
  else 31

/-- A tag record as fetched from the registry API, restricted to the fields
the embedded code reads: 'name' and 'last_updated' (already truncated to a
date, see the module docstring). -/
structure RawTag where
  name : PyStr
  last_updated : PyDate
deriving DecidableEq, Repr

/-- A tag record after getAllTags attached the 'imageName' and
'filterPassReason' keys. -/
structure Tag extends RawTag where
  imageName : PyStr
  filterPassReason : Option PyStr
deriving DecidableEq, Repr

/-- The FilterType enum of the source. -/
inductive FilterType where
  | tag_name
  | time_based
deriving DecidableEq, Repr

/-- Enum lookup FilterType[name] by member name. -/
def filterTypeOfName (s : PyStr) : Option FilterType :=
  if s = "tag_name".toList then some .tag_name
  else if s = "time_based".toList then some .time_based
  else none

/-- The state of a TagFilter object after __init__ ran: imageName and (for
tag_name filters) string are lowercased; years is an int unless the
months-overflow normalization ran, in which case Python 3 true division
made it a float. -/
structure TagFilter where
  imageName : PyStr
  type : FilterType
  string : PyStr := []
  years : PyNum := .int 0
  months : Int := 0
deriving DecidableEq, Repr

/-- The JSON record a TagFilter is constructed from, after the source's
int() conversions of the 'years' / 'months' values.  Records are assumed to
carry the keys their variant reads (a missing key would be a KeyError the
claims do not concern). -/
structure FilterJson where
  imageName : PyStr
  type : PyStr
  string : PyStr := []
  years : Int := 0
  months : Int := 0
deriving DecidableEq, Repr

/-- Python str.replace("-", "_") for single characters: character-wise. -/
def dashToUnderscore (s : PyStr) : PyStr :=
  s.map (fun c => if c = '-' then '_' else c)

/-- TagFilter.__init__.  On months >= 12 the source executes
self.years += self.months / 12 which in Python 3 is float true division:
the stored years becomes a float (modelled as the exact rational; the
claims proved about it hold for the rounded float as well). -/
def mkTagFilter (j : FilterJson) : Except PyErr TagFilter :=
  match filterTypeOfName (dashToUnderscore (pyLower j.type)) with
  | none => .error (.exitErr ("Invalid tag filter type: ".toList ++ j.type))
  | some .tag_name =>
      .ok { imageName := pyLower j.imageName, type := .tag_name,
            string := pyLower j.string }
  | some .time_based =>
      if 12 ≤ j.months then
        .ok { imageName := pyLower j.imageName, type := .time_based,
              years := .float ((j.years : ℚ) + (j.months : ℚ) / 12),
              months := j.months % 12 }
      else
        .ok { imageName := pyLower j.imageName, type := .time_based,
              years := .int j.years, months := j.months }

/-- The cutoff date computation of TagFilter.filterTag (time_based branch),
for an integer years value.  Follows the source line by line:
cutoffMonth fixup via Python's int(-cutoffMonth / 12) + 1 (for the
nonnegative operand arising there, int of true division equals floor
division) and % 12 (Python % is Int.emod, which is Lean's % on Int), and
the day clamped to calendar.monthrange of the computed month. -/
def cutoffDate (years months : Int) (today : PyDate) : PyDate :=
  let cutoffYear := today.year - years
  let cutoffMonth := today.month - months
  let cutoffYear := if cutoffMonth ≤ 0 then cutoffYear - ((-cutoffMonth) / 12 + 1) else cutoffYear
  let cutoffMonth := cutoffMonth % 12
  let cutoffMonth := if cutoffMonth = 0 then 12 else cutoffMonth
  let cutoffDay :=
    if daysInMonth cutoffYear cutoffMonth < today.day then daysInMonth cutoffYear cutoffMonth
    else today.day
  ⟨cutoffYear, cutoffMonth, cutoffDay⟩

/-- The reason string returned for a tag_name match:
"<string>" in tag name. -/
def nameReason (s : PyStr) : PyStr :=
  '"' :: s ++ "\" in tag name".toList

/-- Decimal digits of a nonnegative integer, left-padded with zeros. -/
def padNum (width : Int) (n : Int) : PyStr :=
  let ds := Nat.toDigits 10 n.toNat
  List.replicate (width.toNat - ds.length) '0' ++ ds

/-- Python str(date): ISO format YYYY-MM-DD. -/
def dateStr (d : PyDate) : PyStr :=
  padNum 4 d.year ++ '-' :: padNum 2 d.month ++ '-' :: padNum 2 d.day

/-- The reason string returned for a time_based match:
older than the cutoff date of <date>. -/
def ageReason (cutoff : PyDate) : PyStr :=
  "older than the cutoff date of ".toList ++ dateStr cutoff

/-- TagFilter.filterTag.  The scope gate compares the stored
(construction-lowercased) imageName against the supplied image name without
lowering the latter; the source's `!= None` conjunct is vacuous since the
stored imageName is always a string.  For a time_based filter whose stored
years is a float (months-overflow normalization ran), the source raises
TypeError inside calendar.monthrange / date(); a cutoff year outside
Python's date range 1..9999 raises ValueError in date(). -/
def TagFilter.filterTag (f : TagFilter) (today : PyDate) (imageName : PyStr)
    (tag : RawTag) : Except PyErr (Option PyStr) :=
  if f.imageName ≠ "all".toList ∧ f.imageName ≠ imageName then .ok none
  else
    match f.type with
    | .tag_name =>
        let tagName := pyLower tag.name
        if f.string <:+: tagName then .ok (some (nameReason f.string))
        else .ok none
    | .time_based =>
        match f.years with
        | .float _ => .error .typeError
        | .int yrs =>
            let lastUpdated := tag.last_updated
            let c := cutoffDate yrs f.months today
            if c.year < 1 ∨ 9999 < c.year then .error .valueError
            else if pyDateLt lastUpdated c then .ok (some (ageReason c))
            else .ok none

/-- Python truthiness of an optional string: None and the empty string are
falsy. -/
def pyFalsyStrOpt : Option PyStr → Bool
  | none => true
  | some s => s.isEmpty

/-- The filter loop of getAllTags: starting from the current
filterPassReason, each filter runs only while the accumulated reason is
still falsy, and its result (even None) is assigned wholesale. -/
def applyFilters (today : PyDate) (imageName : PyStr) (tag : RawTag) :
    List TagFilter → Option PyStr → Except PyErr (Option PyStr)
  | [], acc => .ok acc
  | f :: fs, acc =>
      if pyFalsyStrOpt acc then
        match f.filterTag today imageName tag with
        | .error e => .error e
        | .ok r => applyFilters today imageName tag fs r
      else applyFilters today imageName tag fs acc

/-- getAllTags, after pagination: the fetched records (in API order) get
'filterPassReason' initialized to None, 'imageName' set to the queried
image, and then the filter loop runs.  Passing [] for tagFilter covers both
the source's default None and an empty rule list (both falsy, and the loop
over an empty list is a no-op either way). -/
def getAllTags (today : PyDate) (imageName : PyStr) :
    List RawTag → List TagFilter → Except PyErr (List Tag)
  | [], _ => .ok []
  | rt :: rest, tagFilter =>
      match applyFilters today imageName rt tagFilter none with
      | .error e => .error e
      | .ok r =>
          match getAllTags today imageName rest tagFilter with
          | .error e => .error e
          | .ok ts =>
              .ok ({ toRawTag := rt, imageName := imageName, filterPassReason := r } :: ts)

/-!
Day numbering for the proleptic Gregorian calendar, used to express "n days
before today" and to bound the distance between today and the two-month
cutoff.  These are specification-side definitions (the source never counts
days); dayNum is an order isomorphism from valid dates to integers with
consecutive dates mapping to consecutive integers.
-/

/-- Number of leap years in 1..y. -/
def leapsBefore (y : Int) : Int := y / 4 - y / 100 + y / 400

/-- The day number of January 0 of year y (day 1 of year 1 maps to 1). -/
def yearNum (y : Int) : Int := 365 * (y - 1) + leapsBefore (y - 1)

/-- One extra day in leap years. -/
def leapDay (y : Int) : Int := if isLeap y then 1 else 0

/-- Days of year y strictly before month m, for m between 1 and 12. -/
def daysBeforeMonth (y m : Int) : Int :=
  if m ≤ 1 then 0
  else if m = 2 then 31
  else if m = 3 then 59 + leapDay y
  else if m = 4 then 90 + leapDay y
  else if m = 5 then 120 + leapDay y
  else if m = 6 then 151 + leapDay y
  else if m = 7 then 181 + leapDay y
  else if m = 8 then 212 + leapDay y
  else if m = 9 then 243 + leapDay y
  else if m = 10 then 273 + leapDay y
  else if m = 11 then 304 + leapDay y
  else 334 + leapDay y

/-- The day number of a date. -/
def dayNum (d : PyDate) : Int :=
  yearNum d.year + daysBeforeMonth d.year d.month + d.day

/-- A date Python's datetime.date would accept. -/
def ValidDate (d : PyDate) : Prop :=
  1 ≤ d.year ∧ d.year ≤ 9999 ∧ 1 ≤ d.month ∧ d.month ≤ 12 ∧
    1 ≤ d.day ∧ d.day ≤ daysInMonth d.year d.month

instance (d : PyDate) : Decidable (ValidDate d) := by
  unfold ValidDate; infer_instance

theorem leapsBefore_step (y : Int) :
    leapsBefore y - leapsBefore (y - 1) = (if isLeap y then 1 else 0) := by
  simp only [leapsBefore, isLeap, Bool.and_eq_true, Bool.or_eq_true, decide_eq_true_eq]
  split_ifs with h
  · rcases h with ⟨h4, h100 | h400⟩ <;> omega
  · rw [not_and_or] at h
    rcases h with h4 | h
    · omega
    · rw [not_or] at h
      rcases h with ⟨h100, h400⟩
      simp only [not_not] at h100
      omega

theorem leapDay_bounds (y : Int) : 0 ≤ leapDay y ∧ leapDay y ≤ 1 := by
  unfold leapDay
  split_ifs <;> omega

theorem yearNum_step (y : Int) :
    yearNum (y + 1) = yearNum y + 365 + leapDay y := by
  have h := leapsBefore_step y
  simp only [yearNum, add_sub_cancel_right, leapDay]
  omega

theorem daysInMonth_ge (y m : Int) : 28 ≤ daysInMonth y m := by
  unfold daysInMonth
  split_ifs <;> omega

theorem daysInMonth_le (y m : Int) : daysInMonth y m ≤ 31 := by
  unfold daysInMonth
  split_ifs <;> omega

theorem daysInMonth_feb (y : Int) : daysInMonth y 2 = 28 + leapDay y := by
  unfold daysInMonth leapDay
  split_ifs <;> omega

theorem daysBeforeMonth_succ (y m : Int) (h1 : 1 ≤ m) (h2 : m ≤ 11) :
    daysBeforeMonth y (m + 1) = daysBeforeMonth y m + daysInMonth y m := by
  have hf := daysInMonth_feb y
  interval_cases m <;> norm_num [daysBeforeMonth, daysInMonth] <;>
    simp only [leapDay] at * <;> split_ifs at * <;> omega

theorem daysBeforeMonth_mono (y ma mb : Int) (h1 : 1 ≤ ma) (h2 : ma < mb)
    (h3 : mb ≤ 12) : daysBeforeMonth y ma + daysInMonth y ma ≤ daysBeforeMonth y mb := by
  have base : ma + 1 ≤ 12 → daysBeforeMonth y ma + daysInMonth y ma ≤ daysBeforeMonth y (ma + 1) := by
    intro _
    rw [daysBeforeMonth_succ y ma h1 (by omega)]
  have istep : ∀ n : Int, ma + 1 ≤ n →
      (n ≤ 12 → daysBeforeMonth y ma + daysInMonth y ma ≤ daysBeforeMonth y n) →
      (n + 1 ≤ 12 → daysBeforeMonth y ma + daysInMonth y ma ≤ daysBeforeMonth y (n + 1)) := by
    intro n hn ih hle
    rw [daysBeforeMonth_succ y n (by omega) (by omega)]
    have hd := daysInMonth_ge y n
    have hi := ih (by omega)
    omega
  exact @Int.le_induction
    (fun k => k ≤ 12 → daysBeforeMonth y ma + daysInMonth y ma ≤ daysBeforeMonth y k)
    (ma + 1) base istep mb (by omega) h3

theorem daysBeforeMonth_nonneg (y m : Int) (h1 : 1 ≤ m) (h2 : m ≤ 12) :
    0 ≤ daysBeforeMonth y m := by
  have h := leapDay_bounds y
  interval_cases m <;> norm_num [daysBeforeMonth] <;> omega

theorem yearNum_mono (y1 y2 : Int) (h : y1 ≤ y2) :
    yearNum y1 + 365 * (y2 - y1) ≤ yearNum y2 := by
  have istep : ∀ n : Int, y1 ≤ n →
      yearNum y1 + 365 * (n - y1) ≤ yearNum n →
      yearNum y1 + 365 * (n + 1 - y1) ≤ yearNum (n + 1) := by
    intro n hn ih
    have hs := yearNum_step n
    have hpos := leapDay_bounds n
    omega
  exact @Int.le_induction (fun k => yearNum y1 + 365 * (k - y1) ≤ yearNum k) y1
    (by omega) istep y2 h

theorem dayNum_lb (d : PyDate) (h : ValidDate d) : yearNum d.year + 1 ≤ dayNum d := by
  obtain ⟨hy1, hy2, hm1, hm2, hd1, hd2⟩ := h
  have hb := daysBeforeMonth_nonneg d.year d.month hm1 hm2
  simp only [dayNum]
  omega

theorem dayNum_ub (d : PyDate) (h : ValidDate d) : dayNum d ≤ yearNum (d.year + 1) := by
  obtain ⟨y, m, dd⟩ := d
  obtain ⟨hy1, hy2, hm1, hm2, hd1, hd2⟩ := h
  simp only at hy1 hy2 hm1 hm2 hd1 hd2
  simp only [dayNum, yearNum_step]
  cases hL : isLeap y <;>
    (interval_cases m <;>
      simp only [daysBeforeMonth, daysInMonth, leapDay, hL] at hd2 ⊢ <;>
      norm_num at hd2 ⊢ <;>
      omega)

theorem dayNum_lt_of_pyDateLt (a b : PyDate) (ha : ValidDate a) (hb : ValidDate b)
    (h : pyDateLt a b = true) : dayNum a < dayNum b := by
  simp only [pyDateLt, Bool.or_eq_true, Bool.and_eq_true, decide_eq_true_eq] at h
  rcases h with hy | ⟨hy, hm | ⟨hm, hd⟩⟩
  · have h1 := dayNum_ub a ha
    have h2 := dayNum_lb b hb
    have h3 := yearNum_mono (a.year + 1) b.year (by omega)
    omega
  · have h1 := daysBeforeMonth_mono a.year a.month b.month ha.2.2.1 hm hb.2.2.2.1
    have h2 : a.day ≤ daysInMonth a.year a.month := ha.2.2.2.2.2
    have h3 : 1 ≤ b.day := hb.2.2.2.2.1
    simp only [dayNum, ← hy]
    omega
  · simp only [dayNum, ← hy, ← hm]
    omega

theorem pyDateLt_trichotomy (a b : PyDate) :
    pyDateLt a b = true ∨ a = b ∨ pyDateLt b a = true := by
  obtain ⟨ya, ma, da⟩ := a
  obtain ⟨yb, mb, db⟩ := b
  simp only [pyDateLt, Bool.or_eq_true, Bool.and_eq_true, decide_eq_true_eq,
    PyDate.mk.injEq]
  omega

theorem pyDateLt_iff_dayNum (a b : PyDate) (ha : ValidDate a) (hb : ValidDate b) :
    pyDateLt a b = true ↔ dayNum a < dayNum b := by
  constructor
  · exact dayNum_lt_of_pyDateLt a b ha hb
  · intro h
    rcases pyDateLt_trichotomy a b with ht | ht | ht
    · exact ht
    · subst ht; omega
    · have := dayNum_lt_of_pyDateLt b a hb ha ht
      omega

theorem dim_jan (y : Int) : daysInMonth y 1 = 31 := by norm_num [daysInMonth]

theorem dim_feb (y : Int) : daysInMonth y 2 = 28 + leapDay y := daysInMonth_feb y

theorem dim_mar (y : Int) : daysInMonth y 3 = 31 := by norm_num [daysInMonth]

theorem dim_apr (y : Int) : daysInMonth y 4 = 30 := by norm_num [daysInMonth]

theorem dim_may (y : Int) : daysInMonth y 5 = 31 := by norm_num [daysInMonth]

theorem dim_jun (y : Int) : daysInMonth y 6 = 30 := by norm_num [daysInMonth]

theorem dim_jul (y : Int) : daysInMonth y 7 = 31 := by norm_num [daysInMonth]

theorem dim_aug (y : Int) : daysInMonth y 8 = 31 := by norm_num [daysInMonth]

theorem dim_sep (y : Int) : daysInMonth y 9 = 30 := by norm_num [daysInMonth]

theorem dim_oct (y : Int) : daysInMonth y 10 = 31 := by norm_num [daysInMonth]

theorem dim_nov (y : Int) : daysInMonth y 11 = 30 := by norm_num [daysInMonth]

theorem dim_dec (y : Int) : daysInMonth y 12 = 31 := by norm_num [daysInMonth]

theorem dbm_jan (y : Int) : daysBeforeMonth y 1 = 0 := by norm_num [daysBeforeMonth]

theorem dbm_feb (y : Int) : daysBeforeMonth y 2 = 31 := by norm_num [daysBeforeMonth]

theorem dbm_mar (y : Int) : daysBeforeMonth y 3 = 59 + leapDay y := by
  norm_num [daysBeforeMonth]

theorem dbm_apr (y : Int) : daysBeforeMonth y 4 = 90 + leapDay y := by
  norm_num [daysBeforeMonth]

theorem dbm_may (y : Int) : daysBeforeMonth y 5 = 120 + leapDay y := by
  norm_num [daysBeforeMonth]

theorem dbm_jun (y : Int) : daysBeforeMonth y 6 = 151 + leapDay y := by
  norm_num [daysBeforeMonth]

theorem dbm_jul (y : Int) : daysBeforeMonth y 7 = 181 + leapDay y := by
  norm_num [daysBeforeMonth]

theorem dbm_aug (y : Int) : daysBeforeMonth y 8 = 212 + leapDay y := by
  norm_num [daysBeforeMonth]

theorem dbm_sep (y : Int) : daysBeforeMonth y 9 = 243 + leapDay y := by
  norm_num [daysBeforeMonth]

theorem dbm_oct (y : Int) : daysBeforeMonth y 10 = 273 + leapDay y := by
  norm_num [daysBeforeMonth]

theorem dbm_nov (y : Int) : daysBeforeMonth y 11 = 304 + leapDay y := by
  norm_num [daysBeforeMonth]

theorem dbm_dec (y : Int) : daysBeforeMonth y 12 = 334 + leapDay y := by
  norm_num [daysBeforeMonth]

theorem archive_cutoff_bounds (today : PyDate) (hv : ValidDate today)
    (hy : 2 ≤ today.year) :
    ValidDate (cutoffDate 0 2 today) ∧
    dayNum today - 62 ≤ dayNum (cutoffDate 0 2 today) ∧
    dayNum (cutoffDate 0 2 today) ≤ dayNum today - 59 := by
  obtain ⟨y, m, d⟩ := today
  obtain ⟨hy1, hy2, hm1, hm2, hd1, hd2⟩ := hv
  simp only at hy1 hy2 hm1 hm2 hd1 hd2 hy
  have hys : yearNum y = yearNum (y - 1) + 365 + leapDay (y - 1) := by
    have h := yearNum_step (y - 1)
    simp only [sub_add_cancel] at h
    omega
  have hl1 := leapDay_bounds y
  have hl2 := leapDay_bounds (y - 1)
  interval_cases m <;>
    (norm_num [cutoffDate, ValidDate, dayNum,
      dim_jan, dim_feb, dim_mar, dim_apr, dim_may, dim_jun, dim_jul, dim_aug,
      dim_sep, dim_oct, dim_nov, dim_dec,
      dbm_jan, dbm_feb, dbm_mar, dbm_apr, dbm_may, dbm_jun, dbm_jul, dbm_aug,
      dbm_sep, dbm_oct, dbm_nov, dbm_dec] at hd2 ⊢) <;>
    (try split_ifs at hd2 ⊢) <;> omega

/-!
The archive-tags selection: the source builds the hardcoded rule
TagFilter(json.loads of an imageName "all" / type "time-based" /
years "0" / months "2" record)), runs getAllTags with it, and keeps the
tags whose filterPassReason is falsy.
-/

/-- The JSON record of the hardcoded archive rule, after int() conversion
of its string-valued years and months. -/
def archiveFilterJson : FilterJson :=
  { imageName := "all".toList, type := "time-based".toList, years := 0, months := 2 }

/-- The TagFilter object the archive branch constructs. -/
def archiveTagFilter : TagFilter :=
  { imageName := "all".toList, type := .time_based, years := .int 0, months := 2 }

theorem mkTagFilter_archive : mkTagFilter archiveFilterJson = .ok archiveTagFilter := by
  decide

/-- The archive branch: fetch all tags with the hardcoded rule attached,
then keep those whose filterPassReason is falsy (the source's
`if not imageTag[...]` list comprehension). -/
def archiveTagsToPull (today : PyDate) (imageName : PyStr) (results : List RawTag) :
    Except PyErr (List Tag) := do
  let imageTags ← getAllTags today imageName results [archiveTagFilter]
  pure (imageTags.filter (fun t => pyFalsyStrOpt t.filterPassReason))

/-- Reference first-match evaluation, written from the specification's
words: the first rule (in order) producing a non-absent reason wins and
later rules are never consulted; with no match the reason is absent.
Compared against the source's applyFilters loop below. -/
def firstMatchSpec (today : PyDate) (imageName : PyStr) (tag : RawTag) :
    List TagFilter → Except PyErr (Option PyStr)
  | [] => .ok none
  | f :: fs =>
      match f.filterTag today imageName tag with
      | .error e => .error e
      | .ok (some r) => .ok (some r)
      | .ok none => firstMatchSpec today imageName tag fs

theorem nameReason_ne_nil (s : PyStr) : nameReason s ≠ [] := by
  unfold nameReason
  exact List.cons_ne_nil _ _

theorem ageReason_ne_nil (c : PyDate) : ageReason c ≠ [] := by
  intro h
  have hlen := congrArg List.length h
  simp only [ageReason, List.length_append, List.length_nil] at hlen
  have h30 : ("older than the cutoff date of ".toList : PyStr).length = 30 := rfl
  omega

/-- Any reason filterTag returns is a nonempty string, hence truthy. -/
theorem filterTag_reason_ne_nil (f : TagFilter) (today : PyDate) (imageName : PyStr)
    (tag : RawTag) (r : PyStr)
    (h : f.filterTag today imageName tag = .ok (some r)) : r ≠ [] := by
  unfold TagFilter.filterTag at h
  dsimp only at h
  split at h
  · simp at h
  · split at h
    · split at h
      · simp only [Except.ok.injEq, Option.some.injEq] at h
        subst h
        exact nameReason_ne_nil _
      · simp at h
    · split at h
      · simp at h
      · split at h
        · simp at h
        · split at h
          · simp only [Except.ok.injEq, Option.some.injEq] at h
            subst h
            exact ageReason_ne_nil _
          · simp at h

theorem applyFilters_stuck (today : PyDate) (imageName : PyStr) (tag : RawTag)
    (fs : List TagFilter) (r : PyStr) (h : r ≠ []) :
    applyFilters today imageName tag fs (some r) = .ok (some r) := by
  induction fs with
  | nil => rfl
  | cons f fs ih =>
      unfold applyFilters
      rw [if_neg]
      · exact ih
      · simp [pyFalsyStrOpt, h]

/-- The source's sequential filter loop computes exactly the
specification's first-match semantics. -/
theorem applyFilters_eq_firstMatchSpec (today : PyDate) (imageName : PyStr)
    (tag : RawTag) (fs : List TagFilter) :
    applyFilters today imageName tag fs none = firstMatchSpec today imageName tag fs := by
  induction fs with
  | nil => rfl
  | cons f fs ih =>
      unfold applyFilters firstMatchSpec
      have hc : pyFalsyStrOpt none = true := rfl
      rw [if_pos hc]
      cases h : f.filterTag today imageName tag with
      | error e => rfl
      | ok r =>
          cases r with
          | none => exact ih
          | some s =>
              exact applyFilters_stuck today imageName tag fs s
                (filterTag_reason_ne_nil f today imageName tag s h)

/-- A nonempty Python string is truthy. -/
theorem pyFalsyStrOpt_some_false (s : PyStr) (h : s ≠ []) :
    pyFalsyStrOpt (some s) = false := by
  cases s with
  | nil => exact absurd rfl h
  | cons c rest => rfl

/-- The scope gate of filterTag: a filter whose stored scope is neither
"all" nor exactly the supplied image name returns None without evaluating
any of its other fields. -/
theorem filterTag_scope_none (f : TagFilter) (today : PyDate) (imageName : PyStr)
    (tag : RawTag) (h1 : f.imageName ≠ "all".toList) (h2 : f.imageName ≠ imageName) :
    f.filterTag today imageName tag = .ok none := by
  unfold TagFilter.filterTag
  rw [if_pos ⟨h1, h2⟩]

theorem filterTag_archive_none (today : PyDate) (img : PyStr) (tag : RawTag)
    (hc1 : 1 ≤ (cutoffDate 0 2 today).year) (hc9 : (cutoffDate 0 2 today).year ≤ 9999)
    (hlt : pyDateLt tag.last_updated (cutoffDate 0 2 today) = false) :
    archiveTagFilter.filterTag today img tag = .ok none := by
  unfold TagFilter.filterTag archiveTagFilter
  dsimp only
  rw [if_neg (by simp), if_neg (by omega), hlt]
  simp

theorem filterTag_archive_some (today : PyDate) (img : PyStr) (tag : RawTag)
    (hc1 : 1 ≤ (cutoffDate 0 2 today).year) (hc9 : (cutoffDate 0 2 today).year ≤ 9999)
    (hlt : pyDateLt tag.last_updated (cutoffDate 0 2 today) = true) :
    archiveTagFilter.filterTag today img tag
      = .ok (some (ageReason (cutoffDate 0 2 today))) := by
  unfold TagFilter.filterTag archiveTagFilter
  dsimp only
  rw [if_neg (by simp), if_neg (by omega), hlt]
  simp

/-- Claim C2 (amended): with the hardcoded AgeExceeds years 0 / months 2
rule scoped to "all", given three tags whose lastUpdated dates are 10, 70
and 100 days before today, the candidates to pull (tags with no
filterPassReason) are exactly the 10-day tag: the two-month cutoff lies
between 59 and 62 days before today, so both the 70-day and the 100-day
tag match "older than cutoff" and are excluded. -/
theorem c2_archive_selection (today : PyDate) (img : PyStr) (r10 r70 r100 : RawTag)
    (hv : ValidDate today) (hy : 2 ≤ today.year)
    (h10v : ValidDate r10.last_updated) (h10 : dayNum r10.last_updated = dayNum today - 10)
    (h70v : ValidDate r70.last_updated) (h70 : dayNum r70.last_updated = dayNum today - 70)
    (h100v : ValidDate r100.last_updated) (h100 : dayNum r100.last_updated = dayNum today - 100) :
    archiveTagsToPull today img [r10, r70, r100] =
      .ok [{ toRawTag := r10, imageName := img, filterPassReason := none }] := by
  obtain ⟨hcv, hlb, hub⟩ := archive_cutoff_bounds today hv hy
  have hc1 : 1 ≤ (cutoffDate 0 2 today).year := hcv.1
  have hc9 : (cutoffDate 0 2 today).year ≤ 9999 := hcv.2.1
  have hlt10 : pyDateLt r10.last_updated (cutoffDate 0 2 today) = false := by
    rw [Bool.eq_false_iff]
    intro ht
    rw [pyDateLt_iff_dayNum _ _ h10v hcv] at ht
    omega
  have hlt70 : pyDateLt r70.last_updated (cutoffDate 0 2 today) = true := by
    rw [pyDateLt_iff_dayNum _ _ h70v hcv]
    omega
  have hlt100 : pyDateLt r100.last_updated (cutoffDate 0 2 today) = true := by
    rw [pyDateLt_iff_dayNum _ _ h100v hcv]
    omega
  have a10 : applyFilters today img r10 [archiveTagFilter] none = .ok none := by
    rw [applyFilters_eq_firstMatchSpec]
    unfold firstMatchSpec
    rw [filterTag_archive_none today img r10 hc1 hc9 hlt10]
    rfl
  have a70 : applyFilters today img r70 [archiveTagFilter] none
      = .ok (some (ageReason (cutoffDate 0 2 today))) := by
    rw [applyFilters_eq_firstMatchSpec]
    unfold firstMatchSpec
    rw [filterTag_archive_some today img r70 hc1 hc9 hlt70]
  have a100 : applyFilters today img r100 [archiveTagFilter] none
      = .ok (some (ageReason (cutoffDate 0 2 today))) := by
    rw [applyFilters_eq_firstMatchSpec]
    unfold firstMatchSpec
    rw [filterTag_archive_some today img r100 hc1 hc9 hlt100]
  have hfalsy : pyFalsyStrOpt (some (ageReason (cutoffDate 0 2 today))) = false :=
    pyFalsyStrOpt_some_false _ (ageReason_ne_nil _)
  have eg : getAllTags today img [r10, r70, r100] [archiveTagFilter] =
      .ok [{ toRawTag := r10, imageName := img, filterPassReason := none },
           { toRawTag := r70, imageName := img,
             filterPassReason := some (ageReason (cutoffDate 0 2 today)) },
           { toRawTag := r100, imageName := img,
             filterPassReason := some (ageReason (cutoffDate 0 2 today)) }] := by
    simp only [getAllTags, a10, a70, a100]
  have hfalsy2 : (ageReason (cutoffDate 0 2 today)).isEmpty = false := hfalsy
  unfold archiveTagsToPull
  rw [eg]
  simp only [bind, Except.bind, List.filter, pyFalsyStrOpt, hfalsy2]
  rfl

/-- Claim C2 witness: the amended selection theorem applied at
today = 2025-06-15 with tags dated 2025-06-05 (10 days), 2025-04-06
(70 days) and 2025-03-07 (100 days). -/
theorem c2_archive_selection_witness :
    archiveTagsToPull ⟨2025, 6, 15⟩ "pingfoo".toList
      [⟨"10d".toList, ⟨2025, 6, 5⟩⟩, ⟨"70d".toList, ⟨2025, 4, 6⟩⟩,
       ⟨"100d".toList, ⟨2025, 3, 7⟩⟩] =
      .ok [{ toRawTag := ⟨"10d".toList, ⟨2025, 6, 5⟩⟩, imageName := "pingfoo".toList,
             filterPassReason := none }] :=
  c2_archive_selection ⟨2025, 6, 15⟩ "pingfoo".toList _ _ _ (by decide) (by decide)
    (by decide) (by decide) (by decide) (by decide) (by decide) (by decide)

/-- Claim C2 counterexample: at today = 2025-06-15, with tags last updated
2025-06-05, 2025-04-06 and 2025-03-07 (10, 70 and 100 days before today),
the archive candidates are NOT the 10-day and 70-day tags as claimed: only
the 10-day tag survives the inverted two-month filter. -/
theorem c2_counterexample :
    (dayNum ⟨2025, 6, 5⟩ = dayNum ⟨2025, 6, 15⟩ - 10 ∧
     dayNum ⟨2025, 4, 6⟩ = dayNum ⟨2025, 6, 15⟩ - 70 ∧
     dayNum ⟨2025, 3, 7⟩ = dayNum ⟨2025, 6, 15⟩ - 100) ∧
    archiveTagsToPull ⟨2025, 6, 15⟩ "pingdirectory".toList
        [⟨"10d".toList, ⟨2025, 6, 5⟩⟩, ⟨"70d".toList, ⟨2025, 4, 6⟩⟩,
         ⟨"100d".toList, ⟨2025, 3, 7⟩⟩] ≠
      .ok [{ toRawTag := ⟨"10d".toList, ⟨2025, 6, 5⟩⟩,
             imageName := "pingdirectory".toList, filterPassReason := none },
           { toRawTag := ⟨"70d".toList, ⟨2025, 4, 6⟩⟩,
             imageName := "pingdirectory".toList, filterPassReason := none }] ∧
    archiveTagsToPull ⟨2025, 6, 15⟩ "pingdirectory".toList
        [⟨"10d".toList, ⟨2025, 6, 5⟩⟩, ⟨"70d".toList, ⟨2025, 4, 6⟩⟩,
         ⟨"100d".toList, ⟨2025, 3, 7⟩⟩] =
      .ok [{ toRawTag := ⟨"10d".toList, ⟨2025, 6, 5⟩⟩,
             imageName := "pingdirectory".toList, filterPassReason := none }] := by
  decide

/-- Claim C1 (code bug): TagFilter.__init__ on a time_based record with
years 0 and months 14 stores months = 2, but years becomes the float 14/12
(Python 3 true division in self.years += self.months / 12), not the
integer 1 that the spec's normalization describes; evaluating such a
filter later raises TypeError (calendar.monthrange and datetime.date
reject a float year). -/
theorem c1_months_normalization_bug :
    mkTagFilter { imageName := "all".toList, type := "time_based".toList,
                  years := 0, months := 14 } =
      .ok { imageName := "all".toList, type := .time_based,
            years := .float (7 / 6), months := 2 } ∧
    (∀ q : ℚ, PyNum.float q ≠ .int 1) ∧
    TagFilter.filterTag
        { imageName := "all".toList, type := .time_based,
          years := .float (7 / 6), months := 2 }
        ⟨2025, 6, 15⟩ "pingfoo".toList ⟨"t".toList, ⟨2025, 1, 1⟩⟩
      = .error .typeError := by
  refine ⟨?_, fun q => by simp, by rfl⟩
  have h1 : filterTypeOfName (dashToUnderscore (pyLower "time_based".toList))
      = some .time_based := by decide
  have h2 : pyLower "all".toList = "all".toList := by decide
  simp only [mkTagFilter, h1, h2]
  norm_num

/-- The AgeExceeds years 1 / months 0 filter of claim C7, scoped to all. -/
def c7Filter : TagFilter :=
  { imageName := "all".toList, type := .time_based, years := .int 1, months := 0 }

/-- Claim C7: with today fixed at 2025-06-15, the AgeExceeds years 1 /
months 0 rule computes cutoff 2024-06-15 and matches a tag exactly when its
date-only lastUpdated is strictly earlier than that cutoff: a tag dated
2024-06-15 does not match, a tag dated 2024-06-14 does. -/
theorem c7_age_cutoff :
    mkTagFilter { imageName := "all".toList, type := "time_based".toList,
                  years := 1, months := 0 } = .ok c7Filter ∧
    cutoffDate 1 0 ⟨2025, 6, 15⟩ = ⟨2024, 6, 15⟩ ∧
    (∀ (tag : RawTag) (img : PyStr),
      c7Filter.filterTag ⟨2025, 6, 15⟩ img tag =
        (if pyDateLt tag.last_updated ⟨2024, 6, 15⟩ then
          .ok (some (ageReason ⟨2024, 6, 15⟩)) else .ok none)) ∧
    c7Filter.filterTag ⟨2025, 6, 15⟩ "pingfoo".toList
      ⟨"t".toList, ⟨2024, 6, 15⟩⟩ = .ok none ∧
    c7Filter.filterTag ⟨2025, 6, 15⟩ "pingfoo".toList
      ⟨"t".toList, ⟨2024, 6, 14⟩⟩ = .ok (some (ageReason ⟨2024, 6, 15⟩)) := by
  refine ⟨by decide, by decide, ?_, by decide, by decide⟩
  intro tag img
  unfold TagFilter.filterTag c7Filter
  dsimp only
  rw [if_neg (by simp)]
  rw [show cutoffDate 1 0 ⟨2025, 6, 15⟩ = ⟨2024, 6, 15⟩ from by decide]
  rw [if_neg (by decide)]

/-- Any successfully constructed filter stores the lowercased imageName of
its rule record. -/
theorem mkTagFilter_imageName (j : FilterJson) (f : TagFilter)
    (hc : mkTagFilter j = .ok f) : f.imageName = pyLower j.imageName := by
  unfold mkTagFilter at hc
  split at hc
  · exact absurd hc (by simp)
  · simp only [Except.ok.injEq] at hc
    subst hc
    rfl
  · split at hc <;>
      (simp only [Except.ok.injEq] at hc
       subst hc
       rfl)

/-- A successfully constructed tag_name filter is exactly the record with
lowercased imageName and lowercased substring. -/
theorem mkTagFilter_tag_name (j : FilterJson) (f : TagFilter)
    (hc : mkTagFilter j = .ok f) (ht : f.type = .tag_name) :
    f = { imageName := pyLower j.imageName, type := .tag_name,
          string := pyLower j.string } := by
  unfold mkTagFilter at hc
  split at hc
  · exact absurd hc (by simp)
  · simp only [Except.ok.injEq] at hc
    subst hc
    rfl
  · split at hc <;>
      (simp only [Except.ok.injEq] at hc
       subst hc
       simp at ht)

/-- Claim C5 (amended): filterTag returns None for every rule whose stored
scope is neither "all" nor exactly equal to the supplied image name,
regardless of the rule's other fields; the construction lowercases the
rule's scope, but the supplied image name is compared verbatim, so the
comparison is case-insensitive only on the rule's side. -/
theorem c5_scope_gate (f : TagFilter) (today : PyDate) (imageName : PyStr)
    (tag : RawTag) (j : FilterJson) (fj : TagFilter)
    (h1 : f.imageName ≠ "all".toList) (h2 : f.imageName ≠ imageName)
    (hc : mkTagFilter j = .ok fj) :
    f.filterTag today imageName tag = .ok none ∧ fj.imageName = pyLower j.imageName :=
  ⟨filterTag_scope_none f today imageName tag h1 h2, mkTagFilter_imageName j fj hc⟩

/-- Claim C5 witness: a rule scoped to pingfederate evaluated against image
pingdatasync returns None; a rule built from scope MyImage stores the
lowercased scope. -/
theorem c5_scope_gate_witness :
    TagFilter.filterTag
        { imageName := "pingfederate".toList, type := .tag_name, string := [] }
        ⟨2025, 6, 15⟩ "pingdatasync".toList ⟨"latest".toList, ⟨2025, 1, 1⟩⟩
      = .ok none ∧
    ({ imageName := "myimage".toList, type := .tag_name,
       string := "dev".toList } : TagFilter).imageName
      = pyLower ("MyImage".toList) :=
  c5_scope_gate
    { imageName := "pingfederate".toList, type := .tag_name, string := [] }
    ⟨2025, 6, 15⟩ "pingdatasync".toList ⟨"latest".toList, ⟨2025, 1, 1⟩⟩
    { imageName := "MyImage".toList, type := "tag_name".toList, string := "dev".toList }
    { imageName := "myimage".toList, type := .tag_name, string := "dev".toList }
    (by decide) (by decide) (by decide)

/-- Claim C5 counterexample: the scope comparison is not case-insensitive
on the supplied image name.  A rule with scope MyImage (stored lowercased
as myimage) evaluated against the image name MyImage does NOT apply, even
though the two are case-insensitively equal and the substring occurs in
the tag name. -/
theorem c5_counterexample :
    mkTagFilter { imageName := "MyImage".toList, type := "tag_name".toList,
                  string := "dev".toList }
      = .ok { imageName := "myimage".toList, type := .tag_name,
              string := "dev".toList } ∧
    pyLower "myimage".toList = pyLower "MyImage".toList ∧
    "dev".toList <:+: pyLower "big-dev-1".toList ∧
    TagFilter.filterTag
        { imageName := "myimage".toList, type := .tag_name, string := "dev".toList }
        ⟨2025, 6, 15⟩ "MyImage".toList ⟨"big-dev-1".toList, ⟨2025, 1, 1⟩⟩
      = .ok none := by
  decide

/-- Claim C8: for a constructed NameContains rule with scope "all",
filterTag returns a non-absent reason exactly when the rule's substring,
lowercased, occurs in the tag's name, lowercased. -/
theorem c8_name_contains (j : FilterJson) (f : TagFilter) (today : PyDate)
    (img name : PyStr) (lu : PyDate)
    (hc : mkTagFilter j = .ok f) (ht : f.type = .tag_name)
    (hs : f.imageName = "all".toList) :
    (f.filterTag today img ⟨name, lu⟩ ≠ .ok none ↔
      pyLower j.string <:+: pyLower name) := by
  have hf := mkTagFilter_tag_name j f hc ht
  subst hf
  have hs2 : pyLower j.imageName = "all".toList := hs
  unfold TagFilter.filterTag
  dsimp only
  rw [if_neg (by simp [hs2])]
  split_ifs with hin
  · simp [hin]
  · simp [hin]

/-- Claim C8 witness: the rule built from substring SUB scoped to all,
evaluated on a tag named xsuby, matches; the iff instantiated there. -/
theorem c8_name_contains_witness :
    (TagFilter.filterTag
        { imageName := "all".toList, type := .tag_name, string := "sub".toList }
        ⟨2025, 6, 15⟩ "pingfoo".toList ⟨"xsuby".toList, ⟨2025, 1, 1⟩⟩
      ≠ .ok none ↔
      pyLower "SUB".toList <:+: pyLower "xsuby".toList) :=
  c8_name_contains
    { imageName := "All".toList, type := "tag_name".toList, string := "SUB".toList }
    { imageName := "all".toList, type := .tag_name, string := "sub".toList }
    ⟨2025, 6, 15⟩ "pingfoo".toList "xsuby".toList ⟨2025, 1, 1⟩
    (by decide) rfl rfl

/-- Claim C6: every tag record getAllTags returns carries as its
filterPassReason exactly the first-match evaluation of the ordered rule
sequence: the reason of the first rule (in order) returning a non-absent
result, and absent when no rule matches; later rules never override an
earlier match. -/
theorem c6_first_match_wins (today : PyDate) (img : PyStr) (rts : List RawTag)
    (fs : List TagFilter) (ts : List Tag)
    (h : getAllTags today img rts fs = .ok ts) :
    ∀ t ∈ ts, firstMatchSpec today img t.toRawTag fs = .ok t.filterPassReason := by
  induction rts generalizing ts with
  | nil =>
      unfold getAllTags at h
      simp only [Except.ok.injEq] at h
      subst h
      intro t ht
      exact absurd ht (List.not_mem_nil t)
  | cons rt rest ih =>
      unfold getAllTags at h
      split at h
      · exact absurd h (by simp)
      · split at h
        · exact absurd h (by simp)
        · rename_i x1 r ha x2 ts2 hg
          simp only [Except.ok.injEq] at h
          subst h
          intro t ht
          rcases List.mem_cons.mp ht with rfl | hmem
          · dsimp only
            rw [← applyFilters_eq_firstMatchSpec]
            exact ha
          · exact ih ts2 hg t hmem

/-- Claim C6 witness: with two rules both matching a tag (substrings "1"
and "t" of tag name "t1"), the attached reason is the first rule's. -/
theorem c6_first_match_wins_witness :
    firstMatchSpec ⟨2025, 6, 15⟩ "pingfoo".toList ⟨"t1".toList, ⟨2025, 6, 5⟩⟩
        [{ imageName := "all".toList, type := .tag_name, string := "1".toList },
         { imageName := "all".toList, type := .tag_name, string := "t".toList }]
      = .ok (some (nameReason "1".toList)) := by
  have hall := c6_first_match_wins ⟨2025, 6, 15⟩ "pingfoo".toList
    [⟨"t1".toList, ⟨2025, 6, 5⟩⟩]
    [{ imageName := "all".toList, type := .tag_name, string := "1".toList },
     { imageName := "all".toList, type := .tag_name, string := "t".toList }]
    [{ toRawTag := ⟨"t1".toList, ⟨2025, 6, 5⟩⟩, imageName := "pingfoo".toList,
       filterPassReason := some (nameReason "1".toList) }]
    (by decide)
  exact hall
    { toRawTag := ⟨"t1".toList, ⟨2025, 6, 5⟩⟩, imageName := "pingfoo".toList,
      filterPassReason := some (nameReason "1".toList) }
    (List.mem_cons_self _ _)

/-- firstMatchSpec yields an absent reason exactly when every rule in the
sequence returns absent. -/
theorem firstMatchSpec_ok_none_iff (today : PyDate) (img : PyStr) (tag : RawTag)
    (fs : List TagFilter) :
    firstMatchSpec today img tag fs = .ok none ↔
      ∀ f ∈ fs, f.filterTag today img tag = .ok none := by
  induction fs with
  | nil => simp [firstMatchSpec]
  | cons f fs ih =>
      unfold firstMatchSpec
      cases hf : f.filterTag today img tag with
      | error e =>
          constructor
          · intro hh
            exact absurd hh (by simp)
          · intro hh
            have hcontra := hh f (List.mem_cons_self f fs)
            rw [hf] at hcontra
            exact absurd hcontra (by simp)
      | ok r =>
          cases r with
          | none =>
              rw [ih]
              constructor
              · intro hh g hg
                rcases List.mem_cons.mp hg with rfl | hmem
                · exact hf
                · exact hh g hmem
              · intro hh g hg
                exact hh g (List.mem_cons_of_mem f hg)
          | some s =>
              constructor
              · intro hh
                exact absurd hh (by simp)
              · intro hh
                have hcontra := hh f (List.mem_cons_self f fs)
                rw [hf] at hcontra
                exact absurd hcontra (by simp)

/-- Claim C10: every record getAllTags returns carries an imageName field
equal to the queried image name and an always-present filterPassReason
field that is absent exactly when no supplied filter matched (in
particular when no filters were supplied); the records keep the order and
content of the fetched API results. -/
theorem c10_getAllTags_invariants (today : PyDate) (img : PyStr) (rts : List RawTag)
    (fs : List TagFilter) (ts : List Tag)
    (h : getAllTags today img rts fs = .ok ts) :
    ts.map Tag.toRawTag = rts ∧
    ∀ t ∈ ts, t.imageName = img ∧
      (t.filterPassReason = none ↔
        ∀ f ∈ fs, f.filterTag today img t.toRawTag = .ok none) := by
  induction rts generalizing ts with
  | nil =>
      unfold getAllTags at h
      simp only [Except.ok.injEq] at h
      subst h
      exact ⟨rfl, fun t ht => absurd ht (List.not_mem_nil t)⟩
  | cons rt rest ih =>
      unfold getAllTags at h
      split at h
      · exact absurd h (by simp)
      · split at h
        · exact absurd h (by simp)
        · rename_i x1 r ha x2 ts2 hg
          simp only [Except.ok.injEq] at h
          subst h
          obtain ⟨ihmap, ihmem⟩ := ih ts2 hg
          refine ⟨by simp [ihmap], ?_⟩
          intro t ht
          rcases List.mem_cons.mp ht with rfl | hmem
          · refine ⟨rfl, ?_⟩
            dsimp only
            rw [applyFilters_eq_firstMatchSpec] at ha
            constructor
            · intro hr
              subst hr
              exact (firstMatchSpec_ok_none_iff today img rt fs).mp ha
            · intro hall
              have hnone := (firstMatchSpec_ok_none_iff today img rt fs).mpr hall
              rw [ha] at hnone
              simp only [Except.ok.injEq] at hnone
              exact hnone
          · exact ihmem t hmem

/-- Claim C10 witness: a two-record fetch with no filters yields records in
API order with imageName attached and filterPassReason present and absent. -/
theorem c10_getAllTags_witness :
    ([{ toRawTag := ⟨"a".toList, ⟨2025, 6, 5⟩⟩, imageName := "pingfoo".toList,
        filterPassReason := none },
      { toRawTag := ⟨"b".toList, ⟨2024, 1, 2⟩⟩, imageName := "pingfoo".toList,
        filterPassReason := none }].map Tag.toRawTag
      = [⟨"a".toList, ⟨2025, 6, 5⟩⟩, ⟨"b".toList, ⟨2024, 1, 2⟩⟩]) ∧
    ∀ t ∈ ([{ toRawTag := ⟨"a".toList, ⟨2025, 6, 5⟩⟩, imageName := "pingfoo".toList,
              filterPassReason := none },
            { toRawTag := ⟨"b".toList, ⟨2024, 1, 2⟩⟩, imageName := "pingfoo".toList,
              filterPassReason := none }] : List Tag),
      t.imageName = "pingfoo".toList ∧
      (t.filterPassReason = none ↔
        ∀ f ∈ ([] : List TagFilter),
          f.filterTag ⟨2025, 6, 15⟩ "pingfoo".toList t.toRawTag = .ok none) :=
  c10_getAllTags_invariants ⟨2025, 6, 15⟩ "pingfoo".toList
    [⟨"a".toList, ⟨2025, 6, 5⟩⟩, ⟨"b".toList, ⟨2024, 1, 2⟩⟩] []
    [{ toRawTag := ⟨"a".toList, ⟨2025, 6, 5⟩⟩, imageName := "pingfoo".toList,
       filterPassReason := none },
     { toRawTag := ⟨"b".toList, ⟨2024, 1, 2⟩⟩, imageName := "pingfoo".toList,
       filterPassReason := none }]
    (by decide)

/-!
deleteImageTags: the HTTP collaborator is passed in as data — the login
response status, the status of the i-th DELETE call, and the logout
status.  The function prints diagnostics (not modelled) and returns the
successfully deleted tags.
-/

/-- The deletion loop: the i-th tag is appended to successfullyDeleted
exactly when its DELETE returned status 204; any other status is logged
and processing continues. -/
def deleteLoop (deleteStatus : Nat → Int) : List Tag → Nat → List Tag
  | [], _ => []
  | t :: ts, i =>
      if deleteStatus i = 204 then t :: deleteLoop deleteStatus ts (i + 1)
      else deleteLoop deleteStatus ts (i + 1)

/-- deleteImageTags: a login response with status other than 200 is
reported and yields the empty list; otherwise every tag is attempted and
the 204-successes are returned.  The logout response is only logged — the
returned list is computed without consulting it. -/
def deleteImageTags (tags : List Tag) (loginStatus : Int)
    (deleteStatus : Nat → Int) (logoutStatus : Int) : List Tag :=
  if loginStatus ≠ 200 then []
  else deleteLoop deleteStatus tags 0

theorem deleteLoop_eq_filter (deleteStatus : Nat → Int) (ts : List Tag) (i : Nat) :
    deleteLoop deleteStatus ts i =
      ((List.enumFrom i ts).filter
        (fun p => decide (deleteStatus p.1 = 204))).map Prod.snd := by
  induction ts generalizing i with
  | nil => rfl
  | cons t ts ih =>
      unfold deleteLoop
      simp only [List.enumFrom, List.filter]
      by_cases hs : deleteStatus i = 204
      · have hd : decide (deleteStatus i = 204) = true := by simp [hs]
        rw [if_pos hs]
        simp only [hd, List.map_cons]
        rw [ih]
      · have hd : decide (deleteStatus i = 204) = false := by simp [hs]
        rw [if_neg hs]
        simp only [hd]
        rw [ih]

theorem deleteLoop_sublist (deleteStatus : Nat → Int) (ts : List Tag) (i : Nat) :
    List.Sublist (deleteLoop deleteStatus ts i) ts := by
  induction ts generalizing i with
  | nil => exact List.Sublist.refl []
  | cons t ts ih =>
      unfold deleteLoop
      split_ifs
      · exact List.Sublist.cons₂ t (ih (i + 1))
      · exact List.Sublist.cons t (ih (i + 1))

/-- Claim C9 (amended): deleteImageTags never raises for HTTP-status
failures.  If login returns any status other than 200 — including other
2xx codes — it reports the failure and returns the empty list; when login
returns exactly 200 it attempts deletion of every input tag even after
individual failures and returns exactly the subsequence of input tags
whose DELETE returned status 204; the logout status never changes the
returned list. -/
theorem c9_delete_behavior (tags : List Tag) (loginStatus : Int)
    (deleteStatus : Nat → Int) (logoutStatus : Int) :
    (loginStatus ≠ 200 →
      deleteImageTags tags loginStatus deleteStatus logoutStatus = []) ∧
    (loginStatus = 200 →
      deleteImageTags tags loginStatus deleteStatus logoutStatus =
        ((List.enumFrom 0 tags).filter
          (fun p => decide (deleteStatus p.1 = 204))).map Prod.snd ∧
      List.Sublist (deleteImageTags tags loginStatus deleteStatus logoutStatus) tags) ∧
    (∀ logout2 : Int,
      deleteImageTags tags loginStatus deleteStatus logoutStatus =
        deleteImageTags tags loginStatus deleteStatus logout2) := by
  refine ⟨?_, ?_, fun logout2 => rfl⟩
  · intro hne
    unfold deleteImageTags
    rw [if_pos hne]
  · intro heq
    unfold deleteImageTags
    rw [if_neg (by omega)]
    exact ⟨deleteLoop_eq_filter deleteStatus tags 0, deleteLoop_sublist deleteStatus tags 0⟩

/-- Claim C9 witness: with login 200 and delete statuses 404 then 204, the
first tag fails, processing continues, and exactly the second tag is
returned; the logout status 500 does not change the result. -/
theorem c9_delete_behavior_witness :
    deleteImageTags
        [{ toRawTag := ⟨"1.0".toList, ⟨2025, 1, 1⟩⟩, imageName := "pingfoo".toList,
           filterPassReason := none },
         { toRawTag := ⟨"2.0".toList, ⟨2025, 1, 2⟩⟩, imageName := "pingfoo".toList,
           filterPassReason := none }]
        200 (fun i => if i = 0 then 404 else 204) 500 =
      [{ toRawTag := ⟨"2.0".toList, ⟨2025, 1, 2⟩⟩, imageName := "pingfoo".toList,
         filterPassReason := none }] := by
  have h := (c9_delete_behavior
    [{ toRawTag := ⟨"1.0".toList, ⟨2025, 1, 1⟩⟩, imageName := "pingfoo".toList,
       filterPassReason := none },
     { toRawTag := ⟨"2.0".toList, ⟨2025, 1, 2⟩⟩, imageName := "pingfoo".toList,
       filterPassReason := none }]
    200 (fun i => if i = 0 then 404 else 204) 500).2.1 rfl
  rw [h.1]
  decide

/-- Claim C9 counterexample: a login response with the 2xx status 201 is
treated as a failure by the source (it compares against 200 exactly), so
the deletion batch is skipped even though every DELETE would return 204:
the claim's "otherwise" (login 2xx) branch does not hold at 201. -/
theorem c9_counterexample :
    (200 ≤ 201 ∧ 201 < 300) ∧
    deleteImageTags
        [{ toRawTag := ⟨"1.0".toList, ⟨2025, 1, 1⟩⟩, imageName := "pingfoo".toList,
           filterPassReason := none }]
        201 (fun _ => 204) 200 = [] ∧
    ([] : List Tag) ≠
      [{ toRawTag := ⟨"1.0".toList, ⟨2025, 1, 1⟩⟩, imageName := "pingfoo".toList,
         filterPassReason := none }] := by
  decide

/-!
parseArgs: argument parsing over sys.argv[1:].  foundArgs is a Python dict
from lowercased option names to dynamically typed values (the operation
enum member, a string, True, or None); exit(message) is an error result.
-/

/-- The Operation enum of the source. -/
inductive Operation where
  | help
  | list_images
  | list_tags
  | clean_tags
  | archive_tags
deriving DecidableEq, Repr

/-- Enum lookup Operation[name] by member name. -/
def operationOfName (s : PyStr) : Option Operation :=
  if s = "help".toList then some .help
  else if s = "list_images".toList then some .list_images
  else if s = "list_tags".toList then some .list_tags
  else if s = "clean_tags".toList then some .clean_tags
  else if s = "archive_tags".toList then some .archive_tags
  else none

/-- A value stored in the foundArgs dict. -/
inductive ArgVal where
  | opv (o : Operation)
  | strv (s : PyStr)
  | boolv (b : Bool)
  | nonev
deriving DecidableEq, Repr

/-- The foundArgs dict, as an insertion-ordered association list. -/
abbrev ArgMap := List (PyStr × ArgVal)

/-- Python dict assignment d[k] = v: overwrite in place or append. -/
def mapSet (m : ArgMap) (k : PyStr) (v : ArgVal) : ArgMap :=
  if m.any (fun p => p.1 == k) then
    m.map (fun p => if p.1 == k then (k, v) else p)
  else m ++ [(k, v)]

/-- Python d.get(k): None when the key is missing. -/
def mapGet (m : ArgMap) (k : PyStr) : ArgVal :=
  match m.find? (fun p => p.1 == k) with
  | some p => p.2
  | none => .nonev

/-- Python truthiness of a foundArgs value: None is falsy, True is truthy,
a string is truthy iff nonempty. -/
def pyTruthy : ArgVal → Bool
  | .nonev => false
  | .boolv b => b
  | .strv s => !s.isEmpty
  | .opv _ => true

def allowed_boolean_args : List PyStr := ["--dry-run".toList]

def allowed_string_args : List PyStr :=
  ["--image-name".toList, "--username".toList, "--password".toList,
   "--target-registry".toList]

/-- The argument-scanning loop of parseArgs: boolean flags are stored as
True, a string option stores None and waits for its value in the next
position; an unrecognized argument is a fatal usage error. -/
def scanArgs : List PyStr → ArgMap → Option PyStr → Except PyStr (ArgMap × Option PyStr)
  | [], m, cur => .ok (m, cur)
  | a :: rest, m, cur =>
      match cur with
      | none =>
          if pyLower a ∈ allowed_boolean_args then
            scanArgs rest (mapSet m (pyLower a) (.boolv true)) none
          else if pyLower a ∈ allowed_string_args then
            scanArgs rest (mapSet m (pyLower a) .nonev) (some a)
          else .error ("Invalid arg: ".toList ++ a)
      | some c => scanArgs rest (mapSet m (pyLower c) (.strv a)) none

/-- parseArgs over sys.argv[1:] (the script name removed).  The checks
follow the source in order: dangling option value, the clean-tags
credential requirement, the image-name requirement for clean-tags /
list-tags / archive-tags (whose error hint line is suppressed for
archive-tags; the hint text is modelled without its quote characters),
and the target-registry requirement for archive-tags.  No check rejects
any particular image-name VALUE: "all" passes like any other nonempty
string, for archive-tags as well. -/
def parseArgs (argv : List PyStr) : Except PyStr ArgMap :=
  let op := match argv.head? with
    | some a => pyLower a
    | none => "help".toList
  match operationOfName (dashToUnderscore op) with
  | none => .error ("Invalid operation: ".toList ++ op)
  | some operation =>
      match scanArgs argv.tail (mapSet [] "--operation".toList (.opv operation)) none with
      | .error e => .error e
      | .ok (m, cur) =>
          match cur with
          | some c => .error ("No value provided for argument ".toList ++ c)
          | none =>
              if operation = .clean_tags ∧ pyTruthy (mapGet m "--dry-run".toList) = false ∧
                  (pyTruthy (mapGet m "--username".toList) = false ∨
                   pyTruthy (mapGet m "--password".toList) = false) then
                .error ("The --username and --password arguments must be provided for the clean-tags operation".toList)
              else if (operation = .clean_tags ∨ operation = .list_tags ∨
                    operation = .archive_tags) ∧
                  pyTruthy (mapGet m "--image-name".toList) = false then
                .error (("The --image-name argument must be provided for the ".toList
                  ++ op ++ " operation".toList)
                  ++ (if operation ≠ .archive_tags then
                      "\nUse --image-name all to refer to all ping images available on DockerHub".toList
                    else []))
              else if operation = .archive_tags ∧
                  pyTruthy (mapGet m "--target-registry".toList) = false then
                .error ("The --target-registry argument must be provided for the ".toList
                  ++ op ++ " operation".toList)
              else .ok m

/-- The archive-tags command line of claim C4 (after the script name):
archive-tags --image-name all --target-registry registry.example.com. -/
def c4Argv : List PyStr :=
  ["archive-tags".toList, "--image-name".toList, "all".toList,
   "--target-registry".toList, "registry.example.com".toList]

/-- The foundArgs dict parseArgs produces for that command line. -/
def c4Expected : ArgMap :=
  [("--operation".toList, .opv .archive_tags),
   ("--image-name".toList, .strv "all".toList),
   ("--target-registry".toList, .strv "registry.example.com".toList)]

/-- Claim C4 counterexample: running archive-tags with --image-name all is
NOT rejected: parseArgs returns the parsed argument dict (an ok result,
not a fatal usage error), with the literal value "all" stored. -/
theorem c4_counterexample : parseArgs c4Argv = .ok c4Expected := by
  decide

/-- Claim C4 (amended): parseArgs accepts --image-name all for the
archive-tags operation: no fatal usage error is raised, the stored
image-name value is the nonempty (hence truthy) string "all", and the run
proceeds into the archive branch with that literal value. -/
theorem c4_parseargs_accepts_all :
    parseArgs c4Argv = .ok c4Expected ∧
    mapGet c4Expected "--image-name".toList = .strv "all".toList ∧
    pyTruthy (mapGet c4Expected "--image-name".toList) = true := by
  decide

/-!
tagAndPushAll: the docker-engine collaborator is an oracle mapping the
(registry, tagName) of a push call to its streamed sequence of decoded
status lines.  The per-image pushed/failed tag lists the source prints,
and the returned overall boolean, form the result.
-/

/-- The source registry URL constant of the source. -/
def dockerHubRegistryURL : PyStr := "registry.hub.docker.com/pingidentity".toList

/-- A decoded line of the push stream: the source first checks for a
'status' key (progress output) and only otherwise for an 'error' key. -/
structure StreamLine where
  status : Option PyStr := none
  error : Option PyStr := none
deriving DecidableEq, Repr

/-- A line flips errorEncountered exactly when it has no status key and
has an error key (the source's if/elif). -/
def lineSetsError (l : StreamLine) : Bool := l.status.isNone && l.error.isSome

/-- errorEncountered after consuming a whole push stream. -/
def errorEncountered (stream : List StreamLine) : Bool := stream.any lineSetsError

/-- Fuel-driven helper for pyReplace (structural recursion so that the
kernel can evaluate it; the fuel starts at the string length, which the
skip of a nonempty occurrence never exhausts). -/
def pyReplaceAux (old new : PyStr) : Nat → PyStr → PyStr
  | 0, s => s
  | _ + 1, [] => []
  | fuel + 1, c :: rest =>
      if old ≠ [] ∧ old.isPrefixOf (c :: rest) = true then
        new ++ pyReplaceAux old new fuel (rest.drop (old.length - 1))
      else c :: pyReplaceAux old new fuel rest

/-- Python s.replace(old, new): leftmost non-overlapping occurrences.  The
source only calls it with the nonempty registry URL constant as old. -/
def pyReplace (s old new : PyStr) : PyStr := pyReplaceAux old new s.length s

/-- The image objects the docker SDK returns, restricted to what the
source reads: short_id and the local tag list. -/
structure DockerImage where
  short_id : PyStr
  tags : List PyStr
deriving DecidableEq, Repr

/-- What the source reports for one image: the pushed and failed tag lists
it prints after processing the image's tags. -/
structure ImageReport where
  short_id : PyStr
  pushedTags : List PyStr
  failedTags : List PyStr
deriving DecidableEq, Repr

/-- The inner tag loop of tagAndPushAll for one image: tags not containing
the source registry URL are skipped; for the rest, the tag is rewritten to
the target registry (replace, then split on the colon — a tag without a
colon after rewriting raises IndexError), pushed, and classified as failed
exactly when its stream contains an error line. -/
def pushTagsForImage (push : PyStr → PyStr → List StreamLine) (targetRegistry : PyStr) :
    List PyStr → Except PyErr (List PyStr × List PyStr)
  | [] => .ok ([], [])
  | tag :: rest =>
      if dockerHubRegistryURL <:+: tag then
        match List.splitOn ':' (pyReplace tag dockerHubRegistryURL targetRegistry) with
        | registry :: tagName :: _ =>
            match pushTagsForImage push targetRegistry rest with
            | .error e => .error e
            | .ok (ps, fs) =>
                if errorEncountered (push registry tagName) then .ok (ps, tag :: fs)
                else .ok (tag :: ps, fs)
        | _ => .error .indexError
      else pushTagsForImage push targetRegistry rest

/-- The outer image loop, threading the anyTagsFailedPush flag: images
with an empty tag list are skipped entirely (no report printed); the flag
is raised whenever an image had at least one failed tag. -/
def tagAndPushAllGo (push : PyStr → PyStr → List StreamLine) (targetRegistry : PyStr) :
    List DockerImage → Bool → Except PyErr (List ImageReport × Bool)
  | [], anyFailed => .ok ([], anyFailed)
  | img :: rest, anyFailed =>
      if 0 < img.tags.length then
        match pushTagsForImage push targetRegistry img.tags with
        | .error e => .error e
        | .ok (ps, fs) =>
            match tagAndPushAllGo push targetRegistry rest (anyFailed || !fs.isEmpty) with
            | .error e => .error e
            | .ok (rs, af) =>
                .ok ({ short_id := img.short_id, pushedTags := ps, failedTags := fs } :: rs,
                  af)
      else tagAndPushAllGo push targetRegistry rest anyFailed

/-- tagAndPushAll: the per-image reports (the printed pushed/failed lists)
together with the function's return value, not anyTagsFailedPush. -/
def tagAndPushAll (push : PyStr → PyStr → List StreamLine)
    (imagesByShortId : List DockerImage) (targetRegistry : PyStr) :
    Except PyErr (List ImageReport × Bool) :=
  match tagAndPushAllGo push targetRegistry imagesByShortId false with
  | .error e => .error e
  | .ok (rs, anyFailed) => .ok (rs, !anyFailed)

/-- One unfolding step of the tag loop for a hub-prefixed tag whose
rewritten form splits into exactly registry and tag name. -/
theorem pushTagsForImage_cons_hub (push : PyStr → PyStr → List StreamLine)
    (targetRegistry tag : PyStr) (rest : List PyStr) (registry tagName : PyStr)
    (ps fs : List PyStr)
    (hin : dockerHubRegistryURL <:+: tag)
    (hsplit : List.splitOn ':' (pyReplace tag dockerHubRegistryURL targetRegistry)
      = [registry, tagName])
    (hrec : pushTagsForImage push targetRegistry rest = .ok (ps, fs)) :
    pushTagsForImage push targetRegistry (tag :: rest) =
      if errorEncountered (push registry tagName) then .ok (ps, tag :: fs)
      else .ok (tag :: ps, fs) := by
  unfold pushTagsForImage
  rw [if_pos hin, hsplit, hrec]

/-- The two source-registry tags and the target registry of claim C3. -/
def c3Tag1 : PyStr := "registry.hub.docker.com/pingidentity/pingfoo:1.0".toList

def c3Tag2 : PyStr := "registry.hub.docker.com/pingidentity/pingfoo:2.0".toList

def c3Target : PyStr := "archive.example.com/ping".toList

/-- Claim C3: for one pulled image with two source-registry tags, when the
push stream of the first tag yields at least one error line and the stream
of the second yields none, tagAndPushAll reports exactly one failed tag
(the first) and one pushed tag (the second) for that image, and returns
false (some tag failed). -/
theorem c3_push_reporting (sid : PyStr) (s1 s2 : List StreamLine)
    (h1 : errorEncountered s1 = true) (h2 : errorEncountered s2 = false) :
    tagAndPushAll
        (fun _registry tagName => if tagName = "1.0".toList then s1 else s2)
        [{ short_id := sid, tags := [c3Tag1, c3Tag2] }] c3Target
      = .ok ([{ short_id := sid, pushedTags := [c3Tag2], failedTags := [c3Tag1] }],
          false) := by
  have hrec0 : pushTagsForImage
      (fun _registry tagName => if tagName = "1.0".toList then s1 else s2)
      c3Target [] = .ok ([], []) := rfl
  have e2 : pushTagsForImage
      (fun _registry tagName => if tagName = "1.0".toList then s1 else s2)
      c3Target [c3Tag2] = .ok ([c3Tag2], []) := by
    rw [pushTagsForImage_cons_hub _ c3Target c3Tag2 []
      "archive.example.com/ping/pingfoo".toList "2.0".toList [] []
      (by decide) (by decide) hrec0]
    rw [if_neg (show ¬("2.0".toList : PyStr) = "1.0".toList by decide), h2]
    simp
  have e1 : pushTagsForImage
      (fun _registry tagName => if tagName = "1.0".toList then s1 else s2)
      c3Target [c3Tag1, c3Tag2] = .ok ([c3Tag2], [c3Tag1]) := by
    rw [pushTagsForImage_cons_hub _ c3Target c3Tag1 [c3Tag2]
      "archive.example.com/ping/pingfoo".toList "1.0".toList [c3Tag2] []
      (by decide) (by decide) e2]
    rw [if_pos (show ("1.0".toList : PyStr) = "1.0".toList from rfl), h1]
    simp
  unfold tagAndPushAll tagAndPushAllGo
  rw [if_pos (by simp)]
  rw [e1]
  rfl

/-- Claim C3 witness: the reporting theorem at a concrete short id, an
error stream for the first tag and a clean stream for the second. -/
theorem c3_push_reporting_witness :
    tagAndPushAll
        (fun _registry tagName =>
          if tagName = "1.0".toList then
            [{ status := none, error := some "denied".toList }]
          else [{ status := some "Pushing".toList, error := none }])
        [{ short_id := "sha256:abc".toList, tags := [c3Tag1, c3Tag2] }] c3Target
      = .ok ([{ short_id := "sha256:abc".toList, pushedTags := [c3Tag2],
                failedTags := [c3Tag1] }],
          false) :=
  c3_push_reporting "sha256:abc".toList
    [{ status := none, error := some "denied".toList }]
    [{ status := some "Pushing".toList, error := none }]
    (by decide) (by decide)
